import Mathlib

/-!
Shallow embedding of `robot_localization/pf.py` (the particle-filter node).

Modelling conventions:
* Python floats are modelled as elements of a linear ordered field `α`
  (instantiated at `ℝ` for the trigonometric parts of the code, and at `ℚ`
  where a witness has to be evaluated by `decide`).
* Python code that can raise (`ZeroDivisionError` in `normalize_particles`,
  `IndexError` on a list subscript) is modelled with `Option`: `none` is the
  raised exception.
* Calls into `numpy.random` are modelled by oracle arguments: a function
  giving the value of each draw (the standard-deviation factors that the
  source multiplies into the draws are kept in the definitions).
* `np.argsort` is modelled as a stable sort of the index list by weight
  (`insertionSort` over weight/index pairs); the source's quicksort agrees
  with it on every input whose weights are pairwise distinct, and the claims
  never depend on the order of tied weights.
* `np.searchsorted(bools, 1)` over the boolean array `cumulative > rand` is
  modelled as the index of the first `true`, which is what binary search
  returns on a monotone boolean array (the array is monotone because the
  cumulative sums are nondecreasing for the weight vectors the code uses).
-/

/-- `Option`-valued traversal of a list: Python's `for`-loop building a list,
where the body can raise (`none`). -/
def optionMapAll {β γ : Type*} (f : β → Option γ) : List β → Option (List γ)
  | [] => some []
  | a :: l => (f a).bind fun b => (optionMapAll f l).map fun bs => b :: bs

/-- `np.cumsum` with an explicit running accumulator. -/
def cumsumFrom {α : Type*} [Add α] (acc : α) : List α → List α
  | [] => []
  | x :: xs => (acc + x) :: cumsumFrom (acc + x) xs

/-- `np.cumsum`: `cumsum [a, b, c] = [a, a+b, a+b+c]`. -/
def cumsum {α : Type*} [AddZeroClass α] (l : List α) : List α := cumsumFrom 0 l

/-- A particle of `pf.py`: pose hypothesis `(x, y, theta)` with raw weight `w`
and normalized weight `norm_w` (fields of `Particle.__init__`). -/
structure Particle (α : Type*) where
  x : α
  y : α
  theta : α
  w : α
  norm_w : α
deriving DecidableEq

/-- `Particle.__init__(x, y, theta, w=1.0)`: `norm_w` starts at `1.0`. -/
def Particle.init {α : Type*} [One α] (x y theta : α) (w : α := 1) : Particle α :=
  ⟨x, y, theta, w, 1⟩

section GenericField

variable {α : Type*} [LinearOrderedField α]

/-- `ParticleFilter.normalize_particles`: `total_weight = Σ p.w`, then
`p.norm_w = p.w / total_weight` for every particle.  In Python the division
raises `ZeroDivisionError` when the total is `0` and the loop body runs at
least once, hence `none` exactly for a nonempty cloud of total weight `0`. -/
def normalize_particles (cloud : List (Particle α)) : Option (List (Particle α)) :=
  match cloud with
  | [] => some []
  | _ =>
    if (cloud.map Particle.w).sum = 0 then none
    else some (cloud.map fun p => { p with norm_w := p.w / (cloud.map Particle.w).sum })

/-- `np.argsort(weights)` (ascending): indices of `ws` sorted by value. -/
def argsort (ws : List α) : List ℕ :=
  ((ws.zip (List.range ws.length)).insertionSort fun a b => a.1 ≤ b.1).map Prod.snd

/-- Python 3's built-in `round`: round half to even, otherwise to nearest. -/
def pyRound [FloorRing α] (q : α) : ℤ :=
  if q - (⌊q⌋ : α) = 1 / 2 then (if ⌊q⌋ % 2 = 0 then ⌊q⌋ else ⌊q⌋ + 1) else round q

/-- `np.searchsorted(np.array([cum > rand]).flatten(), 1)`: position of the
first entry of `cum` exceeding `r` (length of `cum` if there is none). -/
def selectIndex (cum : List α) (r : α) : ℕ := cum.findIdx fun c => decide (r < c)

/-- The elitism stage of `ParticleFilter.resample_particles` (source lines
252-265): `amount_to_keep = 0.25`, `worst_keeper_index =
round(n_particles * (1 - amount_to_keep))`, then the slice
`sorted_indexes[worst_keeper_index : n_particles - 1]` of the ascending
argsort, looked up in the cloud (`n_particles ≥ 1`; a subscript out of the
list's range would raise, hence `Option`). -/
def elitism_prune [FloorRing α] (n : ℕ) (cloud : List (Particle α)) :
    Option (List (Particle α)) :=
  let sorted_indexes := argsort (cloud.map Particle.w)
  let worst_keeper_index := (pyRound ((n : α) * (1 - 1 / 4))).toNat
  optionMapAll (fun i => cloud[i]?)
    ((sorted_indexes.drop worst_keeper_index).take (n - 1 - worst_keeper_index))

/-- `ParticleFilter.resample_particles`: elitism pruning, renormalization of
the survivors, cumulative probabilities over `norm_w`, then `n_particles`
draws.  `rand i` is the `np.random.rand()` draw of iteration `i`; `jx i m`
(resp. `jy`, `jt`) is the `np.random.normal(m, 1/12)` (resp. `1/12`, `π/24`)
draw of iteration `i` around mean `m`.  Each new particle is built by
`Particle(x, y, theta)`, i.e. with default raw weight `1.0`. -/
def resample_particles [FloorRing α] (n : ℕ) (cloud : List (Particle α))
    (rand : ℕ → α) (jx jy jt : ℕ → α → α) : Option (List (Particle α)) :=
  match elitism_prune n cloud with
  | none => none
  | some best_particles =>
    match normalize_particles best_particles with
    | none => none
    | some pruned =>
      optionMapAll (fun i =>
          (pruned[selectIndex (cumsum (pruned.map Particle.norm_w)) (rand i)]?).map fun sel =>
            Particle.init (jx i sel.x) (jy i sel.y) (jt i sel.theta))
        (List.range n)

end GenericField

/-! ## The real-valued part of the node

The remaining methods of `pf.py` use trigonometry, so they are modelled over
`ℝ`.  External collaborators that are not part of this repository's source
(`OccupancyField.get_closest_obstacle_distance`, the `TFHelper` transform
provider, `quaternion_from_euler`) appear as oracle arguments, and a
published pose is abstracted to the `(x, y, theta)` triple that
`Particle.as_pose` packages into a position/quaternion message. -/

/-- `np.arctan2 y x`, i.e. the argument of the complex number `x + y·i`. -/
noncomputable def arctan2 (y x : ℝ) : ℝ := Complex.arg ⟨x, y⟩

/-- `self.d_thresh = 0.2` (linear movement threshold). -/
noncomputable def d_thresh : ℝ := 0.2

/-- `self.a_thresh = math.pi/6` (angular movement threshold). -/
noncomputable def a_thresh : ℝ := Real.pi / 6

/-- `Particle.turn`: `self.theta += delta_theta`. -/
def Particle.turn (p : Particle ℝ) (delta_theta : ℝ) : Particle ℝ :=
  { p with theta := p.theta + delta_theta }

/-- `Particle.drive`: `self.x += delta_dist*cos(theta); self.y += delta_dist*sin(theta)`. -/
noncomputable def Particle.drive (p : Particle ℝ) (delta_dist : ℝ) : Particle ℝ :=
  { p with
    x := p.x + delta_dist * Real.cos p.theta
    y := p.y + delta_dist * Real.sin p.theta }

/-- One return of the laser scan, in the robot frame: `isInf` marks an
infinite range reading (`np.isinf(r_i)`), `r` its range, `theta` its bearing. -/
structure LaserBeam where
  isInf : Bool
  r : ℝ
  theta : ℝ

/-- The mutable estimator state of the `ParticleFilter` node that the claims
are about: the particle cloud, the odometry baseline
`current_odom_xy_theta` (an empty Python list, i.e. `none`, until the first
scan is aligned), the latest pose estimate `robot_pose`, and the constant
`n_particles` (`300` in `__init__`, kept as a field so theorems can
quantify over it). -/
structure FilterState where
  n_particles : ℕ
  particle_cloud : List (Particle ℝ)
  current_odom_xy_theta : Option (ℝ × ℝ × ℝ)
  robot_pose : Option (ℝ × ℝ × ℝ)

/-- `ParticleFilter.moved_far_enough_to_update(new_odom_xy_theta)` (source
lines 180-183): componentwise `fabs` of the plain differences against the
thresholds — the theta comparison subtracts the wrapped angles directly. -/
noncomputable def moved_far_enough_to_update (cur new_odom : ℝ × ℝ × ℝ) : Prop :=
  |new_odom.1 - cur.1| > d_thresh ∨ |new_odom.2.1 - cur.2.1| > d_thresh ∨
    |new_odom.2.2 - cur.2.2| > a_thresh

/-- `ParticleFilter.update_particles_with_odom` (source lines 216-240).
`g1 i`, `g2 i`, `g3 i` are the three `np.random.randn()` draws of particle
`i` (the `*0.01`, `*0.1`, `*0.01` standard deviations stay explicit).
Returns the moved cloud together with the new odometry baseline; when no
baseline exists the method only records the new snapshot. -/
noncomputable def update_particles_with_odom (cloud : List (Particle ℝ))
    (cur : Option (ℝ × ℝ × ℝ)) (new_odom : ℝ × ℝ × ℝ) (g1 g2 g3 : ℕ → ℝ) :
    List (Particle ℝ) × Option (ℝ × ℝ × ℝ) :=
  match cur with
  | none => (cloud, some new_odom)
  | some old =>
    let dx := new_odom.1 - old.1
    let dy := new_odom.2.1 - old.2.1
    let theta1 := arctan2 dy dx - old.2.2
    let dist := Real.sqrt (dx ^ 2 + dy ^ 2)
    let theta2 := new_odom.2.2 - arctan2 dy dx
    (cloud.enum.map fun ip =>
        ((ip.2.turn (theta1 + g1 ip.1 * 0.01)).drive (dist + g2 ip.1 * 0.1)).turn
          (theta2 + g3 ip.1 * 0.01),
      some new_odom)

/-- The per-particle loop body of `ParticleFilter.update_particles_with_laser`
(source lines 308-317): each valid beam whose projected endpoint is within
`0.15` of an obstacle adds `1` to the raw weight.  `occ x y` is
`OccupancyField.get_closest_obstacle_distance(x, y)`, `none` standing for a
`nan` result. -/
noncomputable def scoreBeams (occ : ℝ → ℝ → Option ℝ) (beams : List LaserBeam)
    (p : Particle ℝ) : Particle ℝ :=
  beams.foldl
    (fun q b =>
      if b.isInf then q
      else
        match occ (b.r * Real.cos (q.theta + b.theta)) (b.r * Real.sin (q.theta + b.theta)) with
        | none => q
        | some obstacle_dist => if obstacle_dist < 0.15 then { q with w := q.w + 1 } else q)
    p

/-- `ParticleFilter.update_particles_with_laser` (source lines 302-321):
score every particle against the scan, then `normalize_particles()`. -/
noncomputable def update_particles_with_laser (occ : ℝ → ℝ → Option ℝ)
    (beams : List LaserBeam) (cloud : List (Particle ℝ)) : Option (List (Particle ℝ)) :=
  normalize_particles (cloud.map (scoreBeams occ beams))

/-- `ParticleFilter.update_robot_pose` (source lines 186-208): normalize,
then accumulate `x*w`, `y*w`, `cos(theta)*w`, `sin(theta)*w` over the cloud
and take `arctan2` of the sine and cosine sums.  Returns the normalized
cloud together with the `(x_avg, y_avg, theta_avg)` the method packages into
`self.robot_pose`. -/
noncomputable def update_robot_pose (cloud : List (Particle ℝ)) :
    Option (List (Particle ℝ) × (ℝ × ℝ × ℝ)) :=
  match normalize_particles cloud with
  | none => none
  | some cl =>
    some (cl,
      ((cl.map fun p => p.x * p.w).sum, (cl.map fun p => p.y * p.w).sum,
        arctan2 (cl.map fun p => Real.sin p.theta * p.w).sum
          (cl.map fun p => Real.cos p.theta * p.w).sum))

/-- `ParticleFilter.initialize_particle_cloud` (source lines 329-352) seeded
at the odometry pose: `n` particles sampled around `xy` with standard
deviations `1/6` (position) and `π/12` (heading) — `ex i`, `ey i`, `et i`
are the standard normal draws — then `normalize_particles()` and
`update_robot_pose()`. -/
noncomputable def init_particle_cloud (n : ℕ) (xy : ℝ × ℝ × ℝ) (ex ey et : ℕ → ℝ) :
    Option (List (Particle ℝ) × (ℝ × ℝ × ℝ)) :=
  match normalize_particles ((List.range n).map fun i =>
      Particle.init (xy.1 + 1 / 6 * ex i) (xy.2.1 + 1 / 6 * ey i)
        (xy.2.2 + Real.pi / 12 * et i)) with
  | none => none
  | some cl => update_robot_pose cl

/-- `ParticleFilter.publish_particles` (source lines 365-371): one message
entry per particle, carrying `p.as_pose()` — abstracted to the pose triple —
and `weight = p.w`, the raw weight. -/
def publishParticles (cloud : List (Particle ℝ)) : List ((ℝ × ℝ × ℝ) × ℝ) :=
  cloud.map fun p => ((p.x, p.y, p.theta), p.w)

/-- The observable phases of one `run_loop` cycle, in execution order. -/
inductive UpdateStep where
  | recordBaseline
  | initCloud
  | motionModel
  | sensorModel
  | poseEstimate
  | resampleStep
  | publishStep
deriving DecidableEq, BEq

open scoped Classical

/-- `ParticleFilter.run_loop` (source lines 162-178), starting from the point
where the scan has been aligned: `new_odom` is the odometry pose matched to
the scan, `beams` the scan in robot-frame polar form.  The branch structure
is the source's `if not self.current_odom_xy_theta / elif not
self.particle_cloud / elif self.moved_far_enough_to_update(...)` cascade,
and `self.publish_particles(...)` runs after it on every non-raising cycle.
The result pairs the outcome (`none` = an exception escaped the cycle, so
nothing was published) with the list of phases the cycle entered, in
order. -/
noncomputable def run_loop (st : FilterState) (new_odom : ℝ × ℝ × ℝ)
    (beams : List LaserBeam) (occ : ℝ → ℝ → Option ℝ) (g1 g2 g3 : ℕ → ℝ)
    (ex ey et : ℕ → ℝ) (rand : ℕ → ℝ) (jx jy jt : ℕ → ℝ → ℝ) :
    Option (FilterState × List ((ℝ × ℝ × ℝ) × ℝ)) × List UpdateStep :=
  match st.current_odom_xy_theta with
  | none =>
    (some ({ st with current_odom_xy_theta := some new_odom },
        publishParticles st.particle_cloud),
      [.recordBaseline, .publishStep])
  | some cur =>
    if st.particle_cloud.isEmpty then
      match init_particle_cloud st.n_particles new_odom ex ey et with
      | none => (none, [.initCloud])
      | some (cloud, pose) =>
        (some ({ st with particle_cloud := cloud, robot_pose := some pose },
            publishParticles cloud),
          [.initCloud, .publishStep])
    else if moved_far_enough_to_update cur new_odom then
      match update_particles_with_laser occ beams
          (update_particles_with_odom st.particle_cloud (some cur) new_odom g1 g2 g3).1 with
      | none => (none, [.motionModel, .sensorModel])
      | some cloud2 =>
        match update_robot_pose cloud2 with
        | none => (none, [.motionModel, .sensorModel, .poseEstimate])
        | some (cloud3, pose) =>
          match resample_particles st.n_particles cloud3 rand jx jy jt with
          | none => (none, [.motionModel, .sensorModel, .poseEstimate, .resampleStep])
          | some cloud4 =>
            (some ({ st with
                  particle_cloud := cloud4
                  current_odom_xy_theta := some new_odom
                  robot_pose := some pose },
                publishParticles cloud4),
              [.motionModel, .sensorModel, .poseEstimate, .resampleStep, .publishStep])
    else (some (st, publishParticles st.particle_cloud), [.publishStep])


/-! ## Concrete inputs used by the evaluation theorems -/

/-- A cloud of 300 particles with strictly increasing raw weights
`1, 2, ..., 300` (the synthetic boundary input for the elitism slice). -/
def cloud300 : List (Particle ℚ) :=
  (List.range 300).map fun i => Particle.init 0 0 0 ((i : ℚ) + 1)

/-- Eight equal-weight particles at distinct x positions. -/
def cloud8q : List (Particle ℚ) :=
  (List.range 8).map fun i => Particle.init (i : ℚ) 0 0 1

/-- Eight identical unit-weight particles at the origin, heading `0`. -/
noncomputable def cloud8 : List (Particle ℝ) :=
  List.replicate 8 (Particle.init 0 0 0 1)

/-- A TRACKING state: `n_particles = 8`, cloud `cloud8`, odometry baseline
`(0,0,0)`, no pose estimate yet. -/
noncomputable def st8 : FilterState := ⟨8, cloud8, some (0, 0, 0), none⟩

/-! ## Helper lemmas -/

theorem optionMapAll_eq_some_of {β γ : Type*} {f : β → Option γ} {g : β → γ}
    {l : List β} (h : ∀ a ∈ l, f a = some (g a)) : optionMapAll f l = some (l.map g) := by
  induction l with
  | nil => rfl
  | cons a t ih =>
    have ha := h a (List.mem_cons_self a t)
    have ht := ih fun b hb => h b (List.mem_cons_of_mem a hb)
    simp [optionMapAll, ha, ht]

theorem optionMapAll_some_of_ex {β γ : Type*} {f : β → Option γ} {P : γ → Prop}
    {l : List β} (h : ∀ a ∈ l, ∃ b, f a = some b ∧ P b) :
    ∃ ys, optionMapAll f l = some ys ∧ ys.length = l.length ∧ ∀ y ∈ ys, P y := by
  induction l with
  | nil => exact ⟨[], rfl, rfl, by simp⟩
  | cons a t ih =>
    obtain ⟨b, hb, hPb⟩ := h a (List.mem_cons_self a t)
    obtain ⟨ys, hys, hlen, hPs⟩ := ih fun c hc => h c (List.mem_cons_of_mem a hc)
    refine ⟨b :: ys, ?_, by simp [hlen], ?_⟩
    · simp [optionMapAll, hb, hys]
    · intro y hy
      rcases List.mem_cons.1 hy with hy | hy
      · exact hy ▸ hPb
      · exact hPs y hy

theorem optionMapAll_mem {β γ : Type*} {f : β → Option γ} {l : List β}
    {ys : List γ} (h : optionMapAll f l = some ys) {y : γ} (hy : y ∈ ys) :
    ∃ a ∈ l, f a = some y := by
  induction l generalizing ys with
  | nil =>
    simp only [optionMapAll] at h
    obtain rfl := Option.some.inj h
    simp at hy
  | cons a t ih =>
    simp only [optionMapAll, Option.bind_eq_some, Option.map_eq_some'] at h
    obtain ⟨b, hb, zs, hzs, rfl⟩ := h
    rcases List.mem_cons.1 hy with rfl | hy
    · exact ⟨a, List.mem_cons_self a t, hb⟩
    · obtain ⟨c, hc, hfc⟩ := ih hzs hy
      exact ⟨c, List.mem_cons_of_mem a hc, hfc⟩

theorem cumsumFrom_sum_mem {α : Type*} [AddCommMonoid α] (acc : α) {l : List α}
    (h : l ≠ []) : acc + l.sum ∈ cumsumFrom acc l := by
  induction l generalizing acc with
  | nil => exact absurd rfl h
  | cons x xs ih =>
    rcases eq_or_ne xs [] with rfl | hxs
    · simp [cumsumFrom]
    · have := ih (acc + x) hxs
      simp only [cumsumFrom, List.sum_cons, List.mem_cons]
      right
      rwa [← add_assoc]

theorem cumsum_sum_mem {α : Type*} [AddCommMonoid α] {l : List α} (h : l ≠ []) :
    l.sum ∈ cumsum l := by
  have := cumsumFrom_sum_mem (0 : α) h
  rwa [zero_add] at this

theorem list_sum_map_div {α : Type*} [DivisionRing α] (l : List α) (c : α) :
    (l.map fun x => x / c).sum = l.sum / c := by
  induction l with
  | nil => simp
  | cons x xs ih => simp [ih, add_div]

section NormalizeLemmas

variable {α : Type*} [LinearOrderedField α]

theorem normalize_particles_eq {cloud : List (Particle α)} (hne : cloud ≠ [])
    (hw : (cloud.map Particle.w).sum ≠ 0) :
    normalize_particles cloud =
      some (cloud.map fun p => { p with norm_w := p.w / (cloud.map Particle.w).sum }) := by
  match cloud, hne with
  | c :: t, _ => simp only [normalize_particles, if_neg hw]

theorem normalized_norm_w_sum {cloud : List (Particle α)}
    (hw : (cloud.map Particle.w).sum ≠ 0) :
    ((cloud.map fun p => { p with norm_w := p.w / (cloud.map Particle.w).sum }).map
      Particle.norm_w).sum = 1 := by
  rw [List.map_map]
  have : (Particle.norm_w ∘ fun p : Particle α =>
      { p with norm_w := p.w / (cloud.map Particle.w).sum }) =
      fun p : Particle α => p.w / (cloud.map Particle.w).sum := rfl
  rw [this]
  have h2 : (cloud.map fun p : Particle α => p.w / (cloud.map Particle.w).sum) =
      ((cloud.map Particle.w).map fun x => x / (cloud.map Particle.w).sum) := by
    rw [List.map_map]; rfl
  rw [h2, list_sum_map_div, div_self hw]

end NormalizeLemmas

theorem arctan2_zero_of_pos {x : ℝ} (hx : 0 < x) : arctan2 0 x = 0 := by
  have hmk : (⟨x, 0⟩ : ℂ) = (x : ℂ) := rfl
  rw [arctan2, hmk, Complex.arg_ofReal_of_nonneg hx.le]

theorem arctan2_zero_of_neg {x : ℝ} (hx : x < 0) : arctan2 0 x = Real.pi := by
  have hmk : (⟨x, 0⟩ : ℂ) = (x : ℂ) := rfl
  rw [arctan2, hmk, Complex.arg_ofReal_of_neg hx]

theorem enum_map_snd_comp {β γ : Type*} (l : List β) (g : β → γ) :
    l.enum.map (fun ip => g ip.2) = l.map g := by
  rw [show (fun ip : ℕ × β => g ip.2) = g ∘ Prod.snd from rfl, ← List.map_map,
    List.enum_map_snd]

theorem enum_map_of_pointwise {β γ : Type*} (l : List β) (f : ℕ × β → γ) (g : β → γ)
    (h : ∀ ip : ℕ × β, f ip = g ip.2) : l.enum.map f = l.map g := by
  have hf : f = fun ip => g ip.2 := funext h
  rw [hf, enum_map_snd_comp]

/-- Odometry step `(0,0,0) → (1,0,0)` with all noise draws `0`: every particle
turns by `0`, drives `1` along its own heading, turns by `0` again. -/
theorem motion_unit_x_zero_noise (cloud : List (Particle ℝ)) :
    update_particles_with_odom cloud (some (0, 0, 0)) (1, 0, 0)
        (fun _ => 0) (fun _ => 0) (fun _ => 0) =
      (cloud.map fun p =>
          { p with x := p.x + Real.cos p.theta, y := p.y + Real.sin p.theta },
        some (1, 0, 0)) := by
  have hpt : ∀ p : Particle ℝ, ((p.turn 0).drive 1).turn 0 =
      { p with x := p.x + Real.cos p.theta, y := p.y + Real.sin p.theta } := by
    intro p
    cases p
    simp [Particle.turn, Particle.drive]
  simp only [update_particles_with_odom, Prod.mk.injEq]
  refine ⟨?_, trivial⟩
  refine enum_map_of_pointwise cloud _ _ ?_
  intro ip
  norm_num [arctan2_zero_of_pos one_pos, Real.sqrt_one]
  exact hpt ip.2

/-! ## Claims C3-C6, C8 -/

/-- Claim C3 — code behavior at the failing input: on a cloud whose raw
weights are all exactly `0`, `normalize_particles` performs `p.w / 0` and the
division raises (`none`); there is no uniform-distribution fallback. -/
theorem claim_C3_zero_total_raises :
    normalize_particles [Particle.init (0 : ℝ) 0 0 0, Particle.init 1 2 3 0] = none := by
  simp [normalize_particles, Particle.init]

/-- Claim C4 — counterexample: with baselines `(0,0,0) → (1,0,0)` and zero
noise, a particle heading `π/2` is shifted by `(0, 1)`, not by `(1, 0)`: the
claimed shift `(1,0)` does not hold regardless of the particle's own pose. -/
theorem claim_C4_counterexample :
    ((update_particles_with_odom [Particle.init 0 0 (Real.pi / 2) 1] (some (0, 0, 0))
            (1, 0, 0) (fun _ => 0) (fun _ => 0) (fun _ => 0)).1.map fun p => (p.x, p.y)) =
        [((0 : ℝ), (1 : ℝ))] ∧ ((0 : ℝ), (1 : ℝ)) ≠ ((1 : ℝ), (0 : ℝ)) := by
  constructor
  · rw [show (update_particles_with_odom [Particle.init 0 0 (Real.pi / 2) 1] (some (0, 0, 0))
        (1, 0, 0) (fun _ => 0) (fun _ => 0) (fun _ => 0)).1 =
        [Particle.init 0 0 (Real.pi / 2) 1].map (fun p =>
          { p with x := p.x + Real.cos p.theta, y := p.y + Real.sin p.theta }) from
        congrArg Prod.fst (motion_unit_x_zero_noise _)]
    simp [Particle.init]
  · norm_num [Prod.ext_iff]

/-- Claim C4 — amended: with baselines `(0,0,0) → (1,0,0)` and zero noise,
every particle moves by distance `1` along its own current heading — the
shift is `(cos theta, sin theta)` — and its heading and weights are
unchanged; the shift is `(1, 0)` only for particles whose heading is `0`. -/
theorem claim_C4_amended (cloud : List (Particle ℝ)) :
    (update_particles_with_odom cloud (some (0, 0, 0)) (1, 0, 0)
        (fun _ => 0) (fun _ => 0) (fun _ => 0)).1 =
      cloud.map fun p =>
        { p with x := p.x + Real.cos p.theta, y := p.y + Real.sin p.theta } := by
  rw [motion_unit_x_zero_noise]

/-- Claim C5 — counterexample: for baselines whose headings differ only by a
`2π` wrap (`theta = π - 0.01` vs `-π + 0.01`, true angular displacement
`0.02 rad`), `moved_far_enough_to_update` nevertheless reports the angular
threshold exceeded, because it subtracts the wrapped angles naively. -/
theorem claim_C5_counterexample :
    moved_far_enough_to_update (0, 0, Real.pi - 0.01) (0, 0, -Real.pi + 0.01) := by
  have hpi := Real.pi_gt_three
  unfold moved_far_enough_to_update a_thresh
  right; right
  show |(-Real.pi + 0.01) - (Real.pi - 0.01)| > Real.pi / 6
  rw [show (-Real.pi + 0.01) - (Real.pi - 0.01) = -(2 * Real.pi - 0.02) by ring, abs_neg,
    abs_of_pos (by linarith)]
  linarith

/-- Claim C5 — amended: the angular gate of `moved_far_enough_to_update`
compares the naive difference `|new.theta - cur.theta|` with `a_thresh`, so
(at any position) two baselines whose headings differ only by a `2π` wrap,
`π - 0.01` versus `-π + 0.01`, are always reported as exceeding the angular
threshold, even though the wrap-aware displacement `0.02 rad` is below it. -/
theorem claim_C5_amended (x y : ℝ) :
    moved_far_enough_to_update (x, y, Real.pi - 0.01) (x, y, -Real.pi + 0.01) := by
  have hpi := Real.pi_gt_three
  unfold moved_far_enough_to_update a_thresh
  right; right
  show |(-Real.pi + 0.01) - (Real.pi - 0.01)| > Real.pi / 6
  rw [show (-Real.pi + 0.01) - (Real.pi - 0.01) = -(2 * Real.pi - 0.02) by ring, abs_neg,
    abs_of_pos (by linarith)]
  linarith

/-- Claim C6: for every nonempty cloud with nonzero total raw weight,
`normalize_particles` succeeds, sets each particle's `norm_w` to
`w / total`, and the resulting `norm_w` values sum to `1`. -/
theorem claim_C6_normalize (cloud : List (Particle ℝ)) (hne : cloud ≠ [])
    (hw : (cloud.map Particle.w).sum ≠ 0) :
    normalize_particles cloud =
        some (cloud.map fun p =>
          { p with norm_w := p.w / (cloud.map Particle.w).sum }) ∧
      ((cloud.map fun p =>
          { p with norm_w := p.w / (cloud.map Particle.w).sum }).map Particle.norm_w).sum =
        1 :=
  ⟨normalize_particles_eq hne hw, normalized_norm_w_sum hw⟩

/-- Claim C6 — witness at a concrete two-particle cloud with weights 1 and 3. -/
theorem claim_C6_witness :
    normalize_particles [Particle.init (0 : ℝ) 0 0 1, Particle.init 2 0 0 3] =
        some ([Particle.init (0 : ℝ) 0 0 1, Particle.init 2 0 0 3].map fun p =>
          { p with
            norm_w := p.w /
              ([Particle.init (0 : ℝ) 0 0 1, Particle.init 2 0 0 3].map Particle.w).sum }) ∧
      (([Particle.init (0 : ℝ) 0 0 1, Particle.init 2 0 0 3].map fun p =>
          { p with
            norm_w := p.w /
              ([Particle.init (0 : ℝ) 0 0 1,
                  Particle.init 2 0 0 3].map Particle.w).sum }).map Particle.norm_w).sum =
        1 :=
  claim_C6_normalize _ (by simp) (by norm_num [Particle.init])

/-- Claim C8: for a cloud holding the two headings `-π + 0.01` and `π - 0.01`
in equal number and with equal positive weight, the heading the pose
estimator computes through `atan2` of the weight-accumulated sines and
cosines is exactly `π` (the wrap boundary), not `0`. -/
theorem claim_C8_circular_mean (x1 y1 x2 y2 nw1 nw2 w : ℝ) (hw : 0 < w) :
    (update_robot_pose
          [⟨x1, y1, -Real.pi + 0.01, w, nw1⟩, ⟨x2, y2, Real.pi - 0.01, w, nw2⟩]).map
        (fun r => r.2.2.2) = some Real.pi := by
  have key : ∀ S C : ℝ, S = 0 → C < 0 → arctan2 S C = Real.pi := by
    intro S C hS hC
    rw [hS]
    exact arctan2_zero_of_neg hC
  have hs : Real.sin (-Real.pi + 0.01) = -Real.sin (Real.pi - 0.01) := by
    rw [show -Real.pi + 0.01 = -(Real.pi - 0.01) by ring, Real.sin_neg]
  have hc : Real.cos (-Real.pi + 0.01) = Real.cos (Real.pi - 0.01) := by
    rw [show -Real.pi + 0.01 = -(Real.pi - 0.01) by ring, Real.cos_neg]
  have hcval : Real.cos (Real.pi - 0.01) = -Real.cos 0.01 := Real.cos_pi_sub 0.01
  have hpi := Real.pi_gt_three
  have hcpos : 0 < Real.cos 0.01 := by
    apply Real.cos_pos_of_mem_Ioo
    constructor <;> [linarith; linarith]
  have hwsum : (([⟨x1, y1, -Real.pi + 0.01, w, nw1⟩,
      ⟨x2, y2, Real.pi - 0.01, w, nw2⟩] : List (Particle ℝ)).map Particle.w).sum ≠ 0 := by
    simp only [List.map_cons, List.map_nil, List.sum_cons, List.sum_nil, add_zero]
    positivity
  have hn : normalize_particles [⟨x1, y1, -Real.pi + 0.01, w, nw1⟩,
      ⟨x2, y2, Real.pi - 0.01, w, nw2⟩] = some (([⟨x1, y1, -Real.pi + 0.01, w, nw1⟩,
      ⟨x2, y2, Real.pi - 0.01, w, nw2⟩] : List (Particle ℝ)).map fun p =>
      { p with
        norm_w := p.w / (([⟨x1, y1, -Real.pi + 0.01, w, nw1⟩,
          ⟨x2, y2, Real.pi - 0.01, w, nw2⟩] : List (Particle ℝ)).map Particle.w).sum }) :=
    normalize_particles_eq (by simp) hwsum
  simp only [update_robot_pose, hn, List.map_cons, List.map_nil, List.sum_cons,
    List.sum_nil, add_zero, Option.map_some']
  refine congrArg some (key _ _ ?_ ?_)
  · rw [hs]; ring
  · rw [hc, hcval]
    nlinarith [mul_pos hcpos hw]

/-- Claim C8 — witness at weight `1` and positions at the origin. -/
theorem claim_C8_witness :
    (update_robot_pose
          [⟨0, 0, -Real.pi + 0.01, 1, 1⟩, ⟨0, 0, Real.pi - 0.01, 1, 1⟩]).map
        (fun r => r.2.2.2) = some Real.pi :=
  claim_C8_circular_mean 0 0 0 0 1 1 1 one_pos

/-! ## Claims C2 and C7 (the resampler) -/

theorem cumsumFrom_length {α : Type*} [Add α] (acc : α) (l : List α) :
    (cumsumFrom acc l).length = l.length := by
  induction l generalizing acc with
  | nil => rfl
  | cons x xs ih => simp [cumsumFrom, ih]

theorem cumsum_length {α : Type*} [AddZeroClass α] (l : List α) :
    (cumsum l).length = l.length := cumsumFrom_length 0 l

/-- Claim C7 — amended: whenever the elitism stage leaves a nonempty survivor
set of nonzero total weight and every uniform draw is `< 1`, resampling
succeeds and produces exactly `n_particles` particles, each freshly built
with the default raw weight `1.0`.  (Without those preconditions — e.g. a
pre-resample cloud of a single particle with `n_particles = 300` — the
selection subscript is out of range and `resample_particles` raises instead
of producing a cloud; see the counterexample.) -/
theorem claim_C7_amended {α : Type*} [LinearOrderedField α] [FloorRing α]
    (n : ℕ) (cloud pr : List (Particle α)) (rand : ℕ → α) (jx jy jt : ℕ → α → α)
    (hpr : elitism_prune n cloud = some pr) (hne : pr ≠ [])
    (hw : (pr.map Particle.w).sum ≠ 0) (hr : ∀ i < n, rand i < 1) :
    ∃ new, resample_particles n cloud rand jx jy jt = some new ∧
      new.length = n ∧ ∀ p ∈ new, p.w = 1 := by
  have hn := normalize_particles_eq hne hw
  have hsum := normalized_norm_w_sum hw
  simp only [resample_particles, hpr, hn]
  set prN : List (Particle α) :=
    pr.map fun p => { p with norm_w := p.w / (pr.map Particle.w).sum } with hprN
  have hprNne : prN ≠ [] := by
    simp only [hprN, ne_eq, List.map_eq_nil_iff]
    exact hne
  have hmem : (prN.map Particle.norm_w).sum ∈ cumsum (prN.map Particle.norm_w) :=
    cumsum_sum_mem (by simpa using hprNne)
  rw [hsum] at hmem
  have hfa : ∀ i ∈ List.range n, ∃ b,
      ((prN[selectIndex (cumsum (prN.map Particle.norm_w)) (rand i)]?).map
        fun sel => Particle.init (jx i sel.x) (jy i sel.y) (jt i sel.theta)) = some b ∧
        b.w = 1 := by
    intro i hi
    have hilt : i < n := List.mem_range.1 hi
    have hidx : selectIndex (cumsum (prN.map Particle.norm_w)) (rand i) < prN.length := by
      have hfid : List.findIdx (fun c => decide (rand i < c))
          (cumsum (prN.map Particle.norm_w)) < (cumsum (prN.map Particle.norm_w)).length :=
        List.findIdx_lt_length_of_exists ⟨1, hmem, decide_eq_true (hr i hilt)⟩
      simpa [selectIndex, cumsum_length, List.length_map] using hfid
    refine ⟨Particle.init (jx i prN[selectIndex (cumsum (prN.map Particle.norm_w)) (rand i)].x)
      (jy i prN[selectIndex (cumsum (prN.map Particle.norm_w)) (rand i)].y)
      (jt i prN[selectIndex (cumsum (prN.map Particle.norm_w)) (rand i)].theta), ?_, rfl⟩
    rw [List.getElem?_eq_getElem hidx, Option.map_some']
  obtain ⟨ys, hys, hlen, hP⟩ := optionMapAll_some_of_ex hfa
  exact ⟨ys, hys, by rw [hlen, List.length_range], hP⟩

section RatEval

attribute [local semireducible] Rat.add Rat.mul Rat.inv Rat.sub

set_option maxRecDepth 40000

/-- Claim C2 — code behavior at the failing input: with `n_particles = 300`
and the strictly increasing weight vector `1, ..., 300`, the elitism slice
`sorted_indexes[round(300*0.75) : 300-1]` keeps only 74 particles — not
`round(300*0.25) = 75` — and the single highest-weight particle (weight
`300`) is not among them. -/
theorem claim_C2_boundary_eval :
    ((elitism_prune (α := ℚ) 300 cloud300).getD []).length = 74 ∧
      (∀ p ∈ (elitism_prune (α := ℚ) 300 cloud300).getD [], p.w ≠ 300) ∧
      pyRound ((300 : ℚ) * (1 / 4)) = 75 ∧
      (elitism_prune (α := ℚ) 300 cloud300).isSome = true := by decide

/-- Claim C7 — counterexample: a pre-resample cloud of a single particle
(with the source's `n_particles = 300`) makes the pruned set empty, the
selection subscript out of range, and `resample_particles` raise (`none`)
instead of producing `n_particles` particles. -/
theorem claim_C7_counterexample :
    resample_particles (α := ℚ) 300 [Particle.init 0 0 0 1]
      (fun _ => 0) (fun _ m => m) (fun _ m => m) (fun _ m => m) = none := by decide

/-- Claim C7 — witness for the amended claim: eight equal-weight particles,
`n_particles = 8`, all uniform draws `0`, jitter draws centered at the mean. -/
theorem claim_C7_witness :
    ∃ new, resample_particles (α := ℚ) 8 cloud8q
        (fun _ => 0) (fun _ m => m) (fun _ m => m) (fun _ m => m) = some new ∧
      new.length = 8 ∧ ∀ p ∈ new, p.w = 1 :=
  claim_C7_amended 8 cloud8q [Particle.init (6 : ℚ) 0 0 1]
    (fun _ => 0) (fun _ m => m) (fun _ m => m) (fun _ m => m)
    (by decide) (by decide) (by decide) (fun i _ => by norm_num)

end RatEval

/-! ## Evaluation of one full TRACKING update on `st8` -/

theorem argsort_replicate {α : Type*} [LinearOrderedField α] (n : ℕ) (c : α) :
    argsort (List.replicate n c) = List.range n := by
  unfold argsort
  have hs : List.Sorted (fun a b : α × ℕ => a.1 ≤ b.1)
      ((List.replicate n c).zip (List.range (List.replicate n c).length)) := by
    refine List.Pairwise.imp_of_mem ?_ (List.pairwise_of_forall fun _ _ => trivial)
    intro a b ha hb _
    obtain ⟨a1, a2⟩ := a
    obtain ⟨b1, b2⟩ := b
    obtain ⟨ha1, -⟩ := List.of_mem_zip ha
    obtain ⟨hb1, -⟩ := List.of_mem_zip hb
    simp only
    rw [List.eq_of_mem_replicate ha1, List.eq_of_mem_replicate hb1]
  rw [List.Sorted.insertionSort_eq hs, List.length_replicate,
    List.map_snd_zip _ _ (by simp)]

theorem run8_motion :
    update_particles_with_odom cloud8 (some (0, 0, 0)) (1, 0, 0)
        (fun _ => 0) (fun _ => 0) (fun _ => 0) =
      (List.replicate 8 (⟨1, 0, 0, 1, 1⟩ : Particle ℝ), some (1, 0, 0)) := by
  rw [motion_unit_x_zero_noise]
  unfold cloud8
  rw [List.map_replicate]
  norm_num [Particle.init]

theorem run8_sensor (occ : ℝ → ℝ → Option ℝ) :
    update_particles_with_laser occ [] (List.replicate 8 (⟨1, 0, 0, 1, 1⟩ : Particle ℝ)) =
      some (List.replicate 8 (⟨1, 0, 0, 1, 1 / 8⟩ : Particle ℝ)) := by
  unfold update_particles_with_laser
  have hscore : (List.replicate 8 (⟨1, 0, 0, 1, 1⟩ : Particle ℝ)).map (scoreBeams occ []) =
      List.replicate 8 (⟨1, 0, 0, 1, 1⟩ : Particle ℝ) := by
    rw [List.map_replicate]
    rfl
  rw [hscore]
  have hsum : ((List.replicate 8 (⟨1, 0, 0, 1, 1⟩ : Particle ℝ)).map Particle.w).sum = 8 := by
    rw [List.map_replicate, List.sum_replicate]
    norm_num
  rw [normalize_particles_eq (by simp) (by rw [hsum]; norm_num), hsum, List.map_replicate]

theorem run8_pose :
    update_robot_pose (List.replicate 8 (⟨1, 0, 0, 1, 1 / 8⟩ : Particle ℝ)) =
      some (List.replicate 8 (⟨1, 0, 0, 1, 1 / 8⟩ : Particle ℝ), (8, 0, 0)) := by
  have hsum : ((List.replicate 8 (⟨1, 0, 0, 1, 1 / 8⟩ : Particle ℝ)).map Particle.w).sum = 8 := by
    rw [List.map_replicate, List.sum_replicate]
    norm_num
  have hn8 : normalize_particles (List.replicate 8 (⟨1, 0, 0, 1, 1 / 8⟩ : Particle ℝ)) =
      some (List.replicate 8 (⟨1, 0, 0, 1, 1 / 8⟩ : Particle ℝ)) := by
    rw [normalize_particles_eq (by simp) (by rw [hsum]; norm_num), hsum, List.map_replicate]
  simp only [update_robot_pose, hn8]
  have hx : ((List.replicate 8 (⟨1, 0, 0, 1, 1 / 8⟩ : Particle ℝ)).map fun p =>
      p.x * p.w).sum = 8 := by
    rw [List.map_replicate, List.sum_replicate]
    norm_num
  have hy : ((List.replicate 8 (⟨1, 0, 0, 1, 1 / 8⟩ : Particle ℝ)).map fun p =>
      p.y * p.w).sum = 0 := by
    rw [List.map_replicate, List.sum_replicate]
    norm_num
  have hsin : ((List.replicate 8 (⟨1, 0, 0, 1, 1 / 8⟩ : Particle ℝ)).map fun p =>
      Real.sin p.theta * p.w).sum = 0 := by
    rw [List.map_replicate, List.sum_replicate]
    norm_num [Real.sin_zero]
  have hcos : ((List.replicate 8 (⟨1, 0, 0, 1, 1 / 8⟩ : Particle ℝ)).map fun p =>
      Real.cos p.theta * p.w).sum = 8 := by
    rw [List.map_replicate, List.sum_replicate]
    norm_num [Real.cos_zero]
  rw [hx, hy, hsin, hcos, arctan2_zero_of_pos (by norm_num : (0 : ℝ) < 8)]

theorem run8_resample :
    resample_particles (α := ℝ) 8 (List.replicate 8 (⟨1, 0, 0, 1, 1 / 8⟩ : Particle ℝ))
        (fun _ => 0) (fun _ m => m) (fun _ m => m) (fun _ m => m) =
      some (List.replicate 8 (⟨1, 0, 0, 1, 1⟩ : Particle ℝ)) := by
  have hprune : elitism_prune (α := ℝ) 8 (List.replicate 8 (⟨1, 0, 0, 1, 1 / 8⟩ : Particle ℝ)) =
      some [⟨1, 0, 0, 1, 1 / 8⟩] := by
    have hpr6 : pyRound (((8 : ℕ) : ℝ) * (1 - 1 / 4)) = 6 := by
      rw [show (((8 : ℕ) : ℝ) * (1 - 1 / 4)) = 6 by norm_num]
      unfold pyRound
      norm_num
    simp only [elitism_prune, List.map_replicate, argsort_replicate, List.length_replicate,
      hpr6]
    rw [show (((List.range 8).drop (Int.toNat 6)).take (8 - 1 - Int.toNat 6)) = [6] from by
      decide]
    simp only [optionMapAll, List.getElem?_replicate]
    norm_num
  have hnorm : normalize_particles [(⟨1, 0, 0, 1, 1 / 8⟩ : Particle ℝ)] =
      some [⟨1, 0, 0, 1, 1⟩] := by
    have hs1 : (([(⟨1, 0, 0, 1, 1 / 8⟩ : Particle ℝ)]).map Particle.w).sum = 1 := by simp
    rw [normalize_particles_eq (by simp) (by rw [hs1]; norm_num), hs1]
    norm_num
  simp only [resample_particles, hprune, hnorm]
  have hcum : cumsum ([(⟨1, 0, 0, 1, 1⟩ : Particle ℝ)].map Particle.norm_w) = [1] := by
    simp [cumsum, cumsumFrom]
  rw [hcum]
  have hsel : selectIndex [(1 : ℝ)] 0 = 0 := by
    unfold selectIndex
    rw [List.findIdx_cons, decide_eq_true (show (0 : ℝ) < 1 by norm_num)]
    rfl
  have hfun : ∀ i ∈ List.range 8,
      ((([(⟨1, 0, 0, 1, 1⟩ : Particle ℝ)])[selectIndex [(1 : ℝ)] ((fun _ : ℕ => (0 : ℝ)) i)]?).map
        fun sel => Particle.init ((fun _ : ℕ => fun m : ℝ => m) i sel.x)
          ((fun _ : ℕ => fun m : ℝ => m) i sel.y) ((fun _ : ℕ => fun m : ℝ => m) i sel.theta)) =
      some ((fun _ : ℕ => (⟨1, 0, 0, 1, 1⟩ : Particle ℝ)) i) := by
    intro i _
    simp only [hsel]
    rfl
  rw [optionMapAll_eq_some_of hfun, List.map_const', List.length_range]

theorem moved_far_unit_x : moved_far_enough_to_update (0, 0, 0) (1, 0, 0) := by
  refine Or.inl ?_
  show |(1 : ℝ) - 0| > d_thresh
  unfold d_thresh
  rw [show (1 : ℝ) - 0 = 1 by ring, abs_one]
  norm_num

theorem run_loop_eval8 (occ : ℝ → ℝ → Option ℝ) (ex ey et : ℕ → ℝ) :
    run_loop st8 (1, 0, 0) [] occ (fun _ => 0) (fun _ => 0) (fun _ => 0) ex ey et
        (fun _ => 0) (fun _ m => m) (fun _ m => m) (fun _ m => m) =
      (some ({ st8 with
            particle_cloud := List.replicate 8 (⟨1, 0, 0, 1, 1⟩ : Particle ℝ)
            current_odom_xy_theta := some (1, 0, 0)
            robot_pose := some (8, 0, 0) },
          List.replicate 8 (((1 : ℝ), (0 : ℝ), (0 : ℝ)), (1 : ℝ))),
        [UpdateStep.motionModel, UpdateStep.sensorModel, UpdateStep.poseEstimate,
          UpdateStep.resampleStep, UpdateStep.publishStep]) := by
  have hm1 : (update_particles_with_odom cloud8 (some (0, 0, 0)) (1, 0, 0)
      (fun _ => 0) (fun _ => 0) (fun _ => 0)).1 = List.replicate 8 (⟨1, 0, 0, 1, 1⟩ : Particle ℝ) := by
    rw [run8_motion]
  simp only [run_loop, st8]
  rw [show cloud8.isEmpty = false from rfl]
  simp only [Bool.false_eq_true, if_false]
  rw [if_pos moved_far_unit_x]
  simp only [hm1, run8_sensor, run8_pose, run8_resample]
  simp only [publishParticles, List.map_replicate]

/-! ## Claims C1, C9, C10 (the run_loop cycle) -/

theorem resample_w_one {α : Type*} [LinearOrderedField α] [FloorRing α]
    {n : ℕ} {cloud l : List (Particle α)} {rand : ℕ → α} {jx jy jt : ℕ → α → α}
    (h : resample_particles n cloud rand jx jy jt = some l) : ∀ p ∈ l, p.w = 1 := by
  unfold resample_particles at h
  split at h
  · exact absurd h (by simp)
  · split at h
    · exact absurd h (by simp)
    · intro p hp
      obtain ⟨i, -, hfi⟩ := optionMapAll_mem h hp
      rw [Option.map_eq_some'] at hfi
      obtain ⟨sel, -, hfeq⟩ := hfi
      rw [← hfeq]
      rfl

/-- Claim C1 — counterexample: on a TRACKING cycle whose gate fires (state
`st8`, odometry `(0,0,0) → (1,0,0)`), the phases actually executed are
motion model, sensor model, pose estimation, resampling, publication — the
resampling step does NOT precede the pose-estimation step, so pose
estimation does not run last after resampling as claimed. -/
theorem claim_C1_counterexample :
    (run_loop st8 (1, 0, 0) [] (fun _ _ => none) (fun _ => 0) (fun _ => 0) (fun _ => 0)
          (fun _ => 0) (fun _ => 0) (fun _ => 0) (fun _ => 0) (fun _ m => m) (fun _ m => m)
          (fun _ m => m)).2 =
        [UpdateStep.motionModel, UpdateStep.sensorModel, UpdateStep.poseEstimate,
          UpdateStep.resampleStep, UpdateStep.publishStep] ∧
      ¬ ([UpdateStep.motionModel, UpdateStep.sensorModel, UpdateStep.poseEstimate,
            UpdateStep.resampleStep, UpdateStep.publishStep].indexOf UpdateStep.resampleStep <
          [UpdateStep.motionModel, UpdateStep.sensorModel, UpdateStep.poseEstimate,
            UpdateStep.resampleStep, UpdateStep.publishStep].indexOf UpdateStep.poseEstimate) := by
  constructor
  · rw [run_loop_eval8]
  · decide

/-- Claim C1 — amended: in the TRACKING state, when accrued displacement
exceeds a threshold, the cycle executes its phases in the order motion model,
then sensor model (which ends by normalizing), then pose estimation (which
first normalizes again), then resampling — pose estimation runs BEFORE
resampling, not after it — and the particle set is published last, once the
update completes. -/
theorem claim_C1_amended (st : FilterState) (new_odom : ℝ × ℝ × ℝ)
    (beams : List LaserBeam) (occ : ℝ → ℝ → Option ℝ) (g1 g2 g3 ex ey et rand : ℕ → ℝ)
    (jx jy jt : ℕ → ℝ → ℝ) (cur : ℝ × ℝ × ℝ)
    (hb : st.current_odom_xy_theta = some cur)
    (hc : st.particle_cloud.isEmpty = false)
    (hm : moved_far_enough_to_update cur new_odom)
    (hs : (run_loop st new_odom beams occ g1 g2 g3 ex ey et rand jx jy jt).1.isSome = true) :
    (run_loop st new_odom beams occ g1 g2 g3 ex ey et rand jx jy jt).2 =
      [UpdateStep.motionModel, UpdateStep.sensorModel, UpdateStep.poseEstimate,
        UpdateStep.resampleStep, UpdateStep.publishStep] := by
  simp only [run_loop, hb, hc, Bool.false_eq_true, if_false] at hs ⊢
  rw [if_pos hm] at hs ⊢
  split
  · rename_i heq
    rw [heq] at hs
    simp at hs
  · rename_i cloud2 heq
    rw [heq] at hs
    simp only [] at hs
    split
    · rename_i heq2
      rw [heq2] at hs
      simp at hs
    · rename_i cloud3 pose heq2
      rw [heq2] at hs
      simp only [] at hs
      split
      · rename_i heq3
        rw [heq3] at hs
        simp at hs
      · rfl

/-- Claim C1 — witness: the completing TRACKING update on `st8`. -/
theorem claim_C1_witness :
    (run_loop st8 (1, 0, 0) [] (fun _ _ => none) (fun _ => 0) (fun _ => 0) (fun _ => 0)
          (fun _ => 0) (fun _ => 0) (fun _ => 0) (fun _ => 0) (fun _ m => m) (fun _ m => m)
          (fun _ m => m)).2 =
      [UpdateStep.motionModel, UpdateStep.sensorModel, UpdateStep.poseEstimate,
        UpdateStep.resampleStep, UpdateStep.publishStep] :=
  claim_C1_amended st8 (1, 0, 0) [] (fun _ _ => none) (fun _ => 0) (fun _ => 0) (fun _ => 0)
    (fun _ => 0) (fun _ => 0) (fun _ => 0) (fun _ => 0) (fun _ m => m) (fun _ m => m)
    (fun _ m => m) (0, 0, 0) rfl rfl moved_far_unit_x (by rw [run_loop_eval8]; rfl)

/-- Claim C9: in the TRACKING state, when displacement since the baseline is
within the linear threshold on both axes and within the angular threshold,
the cycle leaves the state — every particle's position, heading and weights,
and the odometry baseline — unchanged, and still publishes the (unchanged)
particle set. -/
theorem claim_C9_skip_cycle (st : FilterState) (new_odom : ℝ × ℝ × ℝ)
    (beams : List LaserBeam) (occ : ℝ → ℝ → Option ℝ) (g1 g2 g3 ex ey et rand : ℕ → ℝ)
    (jx jy jt : ℕ → ℝ → ℝ) (cur : ℝ × ℝ × ℝ)
    (hb : st.current_odom_xy_theta = some cur)
    (hc : st.particle_cloud.isEmpty = false)
    (hdx : |new_odom.1 - cur.1| ≤ d_thresh)
    (hdy : |new_odom.2.1 - cur.2.1| ≤ d_thresh)
    (hdt : |new_odom.2.2 - cur.2.2| ≤ a_thresh) :
    run_loop st new_odom beams occ g1 g2 g3 ex ey et rand jx jy jt =
      (some (st, publishParticles st.particle_cloud), [UpdateStep.publishStep]) := by
  have hnm : ¬ moved_far_enough_to_update cur new_odom := by
    unfold moved_far_enough_to_update
    rintro (h | h | h)
    · exact not_lt.2 hdx h
    · exact not_lt.2 hdy h
    · exact not_lt.2 hdt h
  simp only [run_loop, hb, hc, Bool.false_eq_true, if_false]
  rw [if_neg hnm]

/-- Claim C9 — witness: `st8` with zero displacement. -/
theorem claim_C9_witness :
    run_loop st8 (0, 0, 0) [] (fun _ _ => none) (fun _ => 0) (fun _ => 0) (fun _ => 0)
        (fun _ => 0) (fun _ => 0) (fun _ => 0) (fun _ => 0) (fun _ m => m) (fun _ m => m)
        (fun _ m => m) =
      (some (st8, publishParticles st8.particle_cloud), [UpdateStep.publishStep]) :=
  claim_C9_skip_cycle st8 (0, 0, 0) [] (fun _ _ => none) (fun _ => 0) (fun _ => 0)
    (fun _ => 0) (fun _ => 0) (fun _ => 0) (fun _ => 0) (fun _ => 0) (fun _ m => m)
    (fun _ m => m) (fun _ m => m) (0, 0, 0) rfl rfl
    (by norm_num [d_thresh]) (by norm_num [d_thresh])
    (by
      have := Real.pi_pos
      norm_num [a_thresh]
      positivity)

/-- Claim C10: publication reports each particle's raw weight `p.w` (not its
normalized weight), and on every cycle whose full update completes,
resampling — the last step before publication — has rebuilt every particle
with the default raw weight, so every published weight equals `1.0`. -/
theorem claim_C10_published_weights (st : FilterState) (new_odom : ℝ × ℝ × ℝ)
    (beams : List LaserBeam) (occ : ℝ → ℝ → Option ℝ) (g1 g2 g3 ex ey et rand : ℕ → ℝ)
    (jx jy jt : ℕ → ℝ → ℝ) (cur : ℝ × ℝ × ℝ) (st' : FilterState)
    (pub : List ((ℝ × ℝ × ℝ) × ℝ))
    (hb : st.current_odom_xy_theta = some cur)
    (hc : st.particle_cloud.isEmpty = false)
    (hm : moved_far_enough_to_update cur new_odom)
    (hrun : (run_loop st new_odom beams occ g1 g2 g3 ex ey et rand jx jy jt).1 =
      some (st', pub)) :
    pub = publishParticles st'.particle_cloud ∧ ∀ q ∈ pub, q.2 = 1 := by
  simp only [run_loop, hb, hc, Bool.false_eq_true, if_false] at hrun
  rw [if_pos hm] at hrun
  split at hrun
  · simp at hrun
  · split at hrun
    · simp at hrun
    · split at hrun
      · simp at hrun
      · rename_i cloud4 hres
        simp only [Option.some.injEq, Prod.mk.injEq] at hrun
        obtain ⟨hst', hpub⟩ := hrun
        constructor
        · rw [← hpub, ← hst']
        · intro q hq
          rw [← hpub] at hq
          obtain ⟨p, hp, rfl⟩ := List.mem_map.1 hq
          exact resample_w_one hres p hp

/-- Claim C10 — witness: the completing TRACKING update on `st8` publishes
eight entries, all with weight `1.0`. -/
theorem claim_C10_witness :
    List.replicate 8 (((1 : ℝ), (0 : ℝ), (0 : ℝ)), (1 : ℝ)) =
        publishParticles ({ st8 with
          particle_cloud := List.replicate 8 (⟨1, 0, 0, 1, 1⟩ : Particle ℝ)
          current_odom_xy_theta := some (1, 0, 0)
          robot_pose := some (8, 0, 0) } : FilterState).particle_cloud ∧
      ∀ q ∈ List.replicate 8 (((1 : ℝ), (0 : ℝ), (0 : ℝ)), (1 : ℝ)), q.2 = 1 :=
  claim_C10_published_weights st8 (1, 0, 0) [] (fun _ _ => none) (fun _ => 0) (fun _ => 0)
    (fun _ => 0) (fun _ => 0) (fun _ => 0) (fun _ => 0) (fun _ => 0) (fun _ m => m)
    (fun _ m => m) (fun _ m => m) (0, 0, 0) _ _ rfl rfl moved_far_unit_x
    (by rw [run_loop_eval8])
